import Mathlib

/-!
Shallow embedding of `updater.py` from Johnthesuper117/Self-Updating-Script.

The program is a zip-based auto-updater (`class AutoUpdater`):
  * `get_local_version` reads `version.json` under the target directory,
  * `get_remote_version` fetches a remote `version.json`,
  * `check_for_updates` compares the two strings with Python's `>`,
  * `do_update` downloads the repository zip and extracts it over the
    target directory, stripping the first path component of each entry,
  * the `__main__` CLI dispatch wires these to `--check`, `--update`, `--force`,
    calling `restart_program` (`os.execv`) after an update.

Strings are modelled as Lean `String` (a list of unicode scalar values,
ordered lexicographically by code point, exactly as Python compares `str`).
File contents are opaque byte lists (`List Nat`).  Filesystem effects of the
installer are modelled as a trace of operations (`Op`) applied to an explicit
filesystem state (`FS`).
-/

set_option autoImplicit false

namespace Updater

/-! ## JSON-like objects

Both `version.json` documents are flat JSON objects; only string-valued
fields are ever consulted (`data.get("version")`, `data.get("url")`), so an
object is an association list from keys to string values.  `lookupKV` is
Python's `dict.get(key)` (keys in a `dict` are unique; we take the first
binding). -/

def lookupKV (kvs : List (String × String)) (k : String) : Option String :=
  (kvs.find? (fun kv => decide (kv.1 = k))).map (fun kv => kv.2)

/-! ## Python string comparison

CPython compares `str` values lexicographically by unicode code point:
scan both strings left to right; at the first differing position the
smaller code point decides; if one string is exhausted first it is the
smaller; equal strings are not less.  `pyStrLt a b` is Python's `a < b`
(so Python's `remote_ver > local_ver` is `pyStrLt local_ver remote_ver`). -/

def pyStrLtChars : List Char → List Char → Bool
  | [], [] => false
  | [], _ :: _ => true
  | _ :: _, [] => false
  | a :: as, b :: bs =>
    if a < b then true
    else if b < a then false
    else pyStrLtChars as bs

def pyStrLt (a b : String) : Bool := pyStrLtChars a.data b.data

/-- The possible states of the local `version.json` file, as distinguished by
`AutoUpdater.get_local_version`: the file may be absent
(`os.path.exists` false), present but unreadable (`open` raises), present
but not JSON (`json.load` raises), or a parsed JSON object. -/
inductive LocalFile where
  | absent
  | unreadable
  | invalidJson
  | valid (kvs : List (String × String))
deriving DecidableEq

/-- The body of an HTTP response, as seen by `response.json()`. -/
inductive RemoteBody where
  | invalidJson
  | json (kvs : List (String × String))
deriving DecidableEq

/-- The outcome of `requests.get(self.version_url, timeout=10)`:
connection failure or timeout (the call raises), or an HTTP response with
a status code and a body. -/
inductive RemoteResponse where
  | connectionFailure
  | timeout
  | http (status : Nat) (body : RemoteBody)
deriving DecidableEq

/-- `AutoUpdater.get_local_version` (updater.py lines 45-57): absent file
defaults to `"0.0.0"`; any exception while reading or parsing is caught and
also yields `"0.0.0"`; a parsed object is read with
`data.get("version", "0.0.0")`. -/
def get_local_version : LocalFile → String
  | LocalFile.absent => "0.0.0"
  | LocalFile.unreadable => "0.0.0"
  | LocalFile.invalidJson => "0.0.0"
  | LocalFile.valid kvs => (lookupKV kvs "version").getD "0.0.0"

/-- `AutoUpdater.get_remote_version` (updater.py lines 59-68): any exception
(connection failure, timeout, `raise_for_status` on a 4xx/5xx status, or a
JSON parse error) is caught and yields `None`; otherwise the result is
`data.get("version")`, which is `None` when the key is missing. -/
def get_remote_version : RemoteResponse → Option String
  | RemoteResponse.connectionFailure => none
  | RemoteResponse.timeout => none
  | RemoteResponse.http status body =>
    if 400 ≤ status ∧ status < 600 then
      none
    else
      match body with
      | RemoteBody.invalidJson => none
      | RemoteBody.json kvs => lookupKV kvs "version"

/-- `AutoUpdater.check_for_updates` (updater.py lines 70-85).  Python's
`if remote_ver and remote_ver != local_ver:` requires `remote_ver` to be
truthy (not `None` and not `""`); the inner `if remote_ver > local_ver:`
is a lexicographic string comparison.  All other paths fall through to
`return False, local_ver, remote_ver`. -/
def check_for_updates (lf : LocalFile) (rr : RemoteResponse) :
    Bool × String × Option String :=
  let local_ver := get_local_version lf
  match get_remote_version rr with
  | some rv =>
    if rv ≠ "" ∧ rv ≠ local_ver then
      if pyStrLt local_ver rv then (true, local_ver, some rv)
      else (false, local_ver, some rv)
    else (false, local_ver, some rv)
  | none => (false, local_ver, none)

/-- `check_for_updates` with the state of the local version record threaded
through explicitly.  The Python function's only filesystem access is the
read inside `get_local_version` (`open(..., 'r')`); it has no code path that
writes the record, so the state passes through unchanged. -/
def check_for_updates_st (lf : LocalFile) (rr : RemoteResponse) :
    (Bool × String × Option String) × LocalFile :=
  (check_for_updates lf rr, lf)

/-! ## The archive installer: `AutoUpdater.do_update`

The zip archive is modelled as the list of its entries in `infolist()`
order; each entry has a path and opaque byte contents.  `zipfile`'s
`ZipInfo.is_dir()` tests whether the path ends with `'/'`.

The installer's filesystem effects are recorded as a trace of operations
(`Op.mkdirs` for `os.makedirs(..., exist_ok=True)` and `Op.write` for
opening a path with mode `'wb'` and writing bytes), paired with the `bool`
that `do_update` returns (`False` when the surrounding `try` catches an
exception). -/

structure ZipEntry where
  filename : String
  content : List Nat
deriving DecidableEq

/-- `ZipInfo.is_dir()`: the path's last character is `'/'`. -/
def is_dir (e : ZipEntry) : Bool := decide (e.filename.data.getLast? = some '/')

/-- Python's `s.split('/', 1)` indexed at `[1]`: `some` of everything after
the first `'/'` when one exists, `none` (an `IndexError` in the source)
when the string contains no `'/'`. -/
def splitFirstSlashAux : List Char → Option (List Char)
  | [] => none
  | c :: cs => if c = '/' then some cs else splitFirstSlashAux cs

/-- `os.path.dirname` (posixpath): everything up to and including the last
`'/'`; then, unless that head is empty or consists only of separators,
trailing separators are stripped. -/
def dirname (s : String) : String :=
  let head := (s.data.reverse.dropWhile (fun c => decide (c ≠ '/'))).reverse
  if head = [] then String.mk head
  else if head.all (fun c => decide (c = '/')) then String.mk head
  else String.mk ((head.reverse.dropWhile (fun c => decide (c = '/'))).reverse)

/-- `os.path.join(a, b)` (posixpath, two arguments): if `b` is absolute the
result is `b`; otherwise `b` is appended to `a`, inserting `'/'` unless `a`
is empty or already ends with `'/'`. -/
def path_join (a b : String) : String :=
  if b.data.head? = some '/' then b
  else if a.data = [] then String.mk (a.data ++ b.data)
  else if a.data.getLast? = some '/' then String.mk (a.data ++ b.data)
  else String.mk (a.data ++ '/' :: b.data)

/-- `os.path.join(self.target_dir, "version.json")`: the path of the local
version record. -/
def local_version_file (tgt : String) : String := path_join tgt "version.json"

/-- A filesystem operation performed by the installer loop. -/
inductive Op where
  | mkdirs (dir : String)
  | write (path : String) (content : List Nat)
deriving DecidableEq

/-- One iteration of the `for member in z.infolist()` loop in `do_update`
(updater.py lines 106-125): directory entries are skipped;
`rel_path = str(member.filename).split('/', 1)[1]` raises `IndexError`
(modelled as `none`) when the path has no `'/'`; an empty `rel_path` is
skipped; otherwise the loop creates the parent directories of
`target_path` and writes the entry's bytes there.  The computed
`root_folder` (first entry's first component) is used only in a log
message and plays no part in this loop. -/
def processEntry (tgt : String) (e : ZipEntry) : Option (List Op) :=
  if is_dir e then some []
  else
    match splitFirstSlashAux e.filename.data with
    | none => none
    | some rel =>
      if rel = [] then some []
      else
        let target_path := path_join tgt (String.mk rel)
        some [Op.mkdirs (dirname target_path), Op.write target_path e.content]

/-- The installer loop over all entries: the trace of filesystem operations
performed, and whether the loop ran to completion.  When an entry raises
(`processEntry` is `none`), the loop stops: nothing from that entry or any
later entry is performed, and the surrounding `except` makes `do_update`
return `False`; operations already performed remain performed. -/
def runEntries (tgt : String) : List ZipEntry → List Op × Bool
  | [] => ([], true)
  | e :: rest =>
    match processEntry tgt e with
    | none => ([], false)
    | some ops => (ops ++ (runEntries tgt rest).1, (runEntries tgt rest).2)

/-- `AutoUpdater.do_update` (updater.py lines 87-133) applied to an
already-downloaded, well-formed zip archive given as its entry list.  On an
empty archive, `z.namelist()[0]` raises `IndexError`, caught by the outer
`except`, so nothing is written and `False` is returned; otherwise the
entry loop runs.  `do_update` contains no step that writes the version
record: its only writes are the archive entries themselves. -/
def do_update (tgt : String) (entries : List ZipEntry) : List Op × Bool :=
  match entries with
  | [] => ([], false)
  | _ :: _ => runEntries tgt entries

/-- The file writes contained in a trace, in order. -/
def writesOf (ops : List Op) : List (String × List Nat) :=
  ops.filterMap (fun op =>
    match op with
    | Op.mkdirs _ => none
    | Op.write p c => some (p, c))

/-- The character list of the root directory `"Repo-main/"` that GitHub
uses for a zip of branch `main` of repository `Repo`. -/
def repoRoot : List Char := ['R', 'e', 'p', 'o', '-', 'm', 'a', 'i', 'n', '/']

/-! ## Filesystem semantics of a trace

`FS` is an explicit filesystem state: the set of directories that exist
and the files, as a shadowing association list (the most recent write to a
path is found first, so a write overwrites whatever was at that path). -/

structure FS where
  dirs : List String
  files : List (String × List Nat)

/-- The directories created by `os.makedirs(d, exist_ok=True)`: `d` itself
and each of its ancestors (repeatedly taking `dirname`), fuelled by the
path length since `dirname` is not structurally decreasing on degenerate
all-separator paths. -/
def dirChainAux : Nat → List Char → List String
  | 0, _ => []
  | fuel + 1, d =>
    if d = [] then []
    else if (dirname (String.mk d)).data = d then [String.mk d]
    else String.mk d :: dirChainAux fuel (dirname (String.mk d)).data

def dirChain (d : String) : List String := dirChainAux (d.data.length + 1) d.data

def FS.applyOp (fs : FS) : Op → FS
  | Op.mkdirs d => { fs with dirs := dirChain d ++ fs.dirs }
  | Op.write p c => { fs with files := (p, c) :: fs.files }

def applyOps (fs : FS) (ops : List Op) : FS := ops.foldl FS.applyOp fs

/-- The content a filesystem state holds at path `p`, if any. -/
def FS.lookupFile (fs : FS) (p : String) : Option (List Nat) :=
  (fs.files.find? (fun kv => decide (kv.1 = p))).map (fun kv => kv.2)

/-! ## The `__main__` command-line dispatch -/

/-- The observable calls made by the CLI dispatch. -/
inductive CliAction where
  | checkForUpdates
  | doUpdateCall
  | execRestart
deriving DecidableEq

set_option linter.unusedVariables false in
/-- The `if __name__ == "__main__":` dispatch (updater.py lines 180-191),
as the sequence of calls it performs given the parsed flags and the
runtime outcomes.  `--force` runs `do_update()` then `restart_program()`;
`--update` runs `check_for_updates()` and, if an update is available, runs
`do_update()` then `restart_program()`.  In both branches the boolean that
`do_update()` returns is discarded: `restart_program()` (which calls
`os.execv` and never returns) is invoked whether or not the install
succeeded, so `installOk` does not occur on the right-hand side. -/
def cli_main (force update : Bool) (available installOk : Bool) :
    List CliAction :=
  if force then [CliAction.doUpdateCall, CliAction.execRestart]
  else if update then
    if available then
      [CliAction.checkForUpdates, CliAction.doUpdateCall, CliAction.execRestart]
    else [CliAction.checkForUpdates]
  else [CliAction.checkForUpdates]

/-! ## Lemmas about the version comparison -/

theorem pyStrLtChars_irrefl (l : List Char) : pyStrLtChars l l = false := by
  induction l with
  | nil => rfl
  | cons c cs ih => simp [pyStrLtChars, ih]

theorem pyStrLt_irrefl (s : String) : pyStrLt s s = false :=
  pyStrLtChars_irrefl s.data

theorem pyStrLtChars_nil (l : List Char) : pyStrLtChars l [] = false := by
  cases l <;> rfl

/-- Nothing is lexicographically below the empty string. -/
theorem pyStrLt_empty (s : String) : pyStrLt s "" = false :=
  pyStrLtChars_nil s.data

/-- The first component of `check_for_updates` once the remote version is
known: the comparison used is exactly `pyStrLt local remote`, because the
extra Python guards (`remote_ver` truthy, `remote_ver != local_ver`) are
implied by strict lexicographic order. -/
theorem check_fst_iff (lf : LocalFile) (rr : RemoteResponse) (rv : String)
    (h : get_remote_version rr = some rv) :
    ((check_for_updates lf rr).1 = true ↔
      pyStrLt (get_local_version lf) rv = true) := by
  simp only [check_for_updates, h]
  split_ifs with h1 h2
  · simp [h2]
  · simp [h2]
  · rcases not_and_or.mp h1 with h1 | h1
    · rw [not_ne_iff.mp h1]
      simp [pyStrLt_empty]
    · rw [not_ne_iff.mp h1]
      simp [pyStrLt_irrefl]

/-! ## Lemmas about the installer -/

/-- Unfolding `runEntries` on a cons whose head raises. -/
theorem runEntries_cons_fail (tgt : String) (e : ZipEntry) (rest : List ZipEntry)
    (hpe : processEntry tgt e = none) :
    runEntries tgt (e :: rest) = ([], false) := by
  simp [runEntries, hpe]

/-- Unfolding `runEntries` on a cons whose head succeeds. -/
theorem runEntries_cons_ok (tgt : String) (e : ZipEntry) (rest : List ZipEntry)
    (ops : List Op) (hpe : processEntry tgt e = some ops) :
    runEntries tgt (e :: rest) =
      (ops ++ (runEntries tgt rest).1, (runEntries tgt rest).2) := by
  simp [runEntries, hpe]

/-- Splitting the loop over a partition of the entry list: once a failure
occurs, nothing later runs. -/
theorem runEntries_append (tgt : String) (l1 l2 : List ZipEntry) :
    runEntries tgt (l1 ++ l2) =
      if (runEntries tgt l1).2 then
        ((runEntries tgt l1).1 ++ (runEntries tgt l2).1, (runEntries tgt l2).2)
      else runEntries tgt l1 := by
  induction l1 with
  | nil => simp [runEntries]
  | cons e rest ih =>
    rw [List.cons_append]
    cases hp : processEntry tgt e with
    | none =>
      rw [runEntries_cons_fail tgt e (rest ++ l2) hp,
        runEntries_cons_fail tgt e rest hp]
      simp
    | some ops =>
      rw [runEntries_cons_ok tgt e (rest ++ l2) ops hp,
        runEntries_cons_ok tgt e rest ops hp, ih]
      by_cases h2 : (runEntries tgt rest).2 = true
      · simp [h2, List.append_assoc]
      · simp [h2]

/-- `split('/', 1)[1]` on a path rooted at `"Repo-main/"` yields the part
after the root. -/
theorem splitFirstSlashAux_root (rest : List Char) :
    splitFirstSlashAux (repoRoot ++ rest) = some rest := by
  simp [repoRoot, splitFirstSlashAux]

/-- A directory entry is skipped. -/
theorem processEntry_dir (tgt : String) (e : ZipEntry) (hd : is_dir e = true) :
    processEntry tgt e = some [] := by
  simp [processEntry, hd]

/-- Processing a file entry rooted at `"Repo-main/"` yields the
mkdirs-then-write pair at the root-stripped path. -/
theorem processEntry_root_file (tgt : String) (e : ZipEntry) (rest : List Char)
    (hf : e.filename.data = repoRoot ++ rest) (hd : is_dir e = false) :
    processEntry tgt e =
      some [Op.mkdirs (dirname (path_join tgt (String.mk rest))),
            Op.write (path_join tgt (String.mk rest)) e.content] := by
  have hrest : rest ≠ [] := by
    intro h0
    subst h0
    simp only [List.append_nil] at hf
    have : is_dir e = true := by simp [is_dir, hf, repoRoot]
    rw [hd] at this
    exact Bool.false_ne_true this
  simp [processEntry, hd, hf, splitFirstSlashAux_root, hrest]

/-- The loop on an archive all of whose entries are rooted at
`"Repo-main/"`: it completes, and the writes are exactly the non-directory
entries at their root-stripped paths with their own contents. -/
theorem writesOf_nil : writesOf [] = [] := rfl

theorem writesOf_cons_mkdirs (d : String) (ops : List Op) :
    writesOf (Op.mkdirs d :: ops) = writesOf ops := rfl

theorem writesOf_cons_write (p : String) (c : List Nat) (ops : List Op) :
    writesOf (Op.write p c :: ops) = (p, c) :: writesOf ops := rfl

theorem writesOf_append (l1 l2 : List Op) :
    writesOf (l1 ++ l2) = writesOf l1 ++ writesOf l2 :=
  List.filterMap_append l1 l2 _

theorem runEntries_rooted (tgt : String) (entries : List ZipEntry)
    (hall : ∀ e ∈ entries, ∃ rest, e.filename.data = repoRoot ++ rest) :
    (runEntries tgt entries).2 = true ∧
    writesOf (runEntries tgt entries).1 =
      (entries.filter (fun e => !(is_dir e))).map
        (fun e => (path_join tgt (String.mk (e.filename.data.drop repoRoot.length)),
          e.content)) := by
  induction entries with
  | nil => simp [runEntries, writesOf]
  | cons e rest ih =>
    obtain ⟨tl, hf⟩ := hall e (List.mem_cons_self e rest)
    have ih' := ih (fun x hx => hall x (List.mem_cons_of_mem e hx))
    cases hd : is_dir e with
    | true =>
      simp only [runEntries, processEntry_dir tgt e hd, List.nil_append,
        List.filter_cons, hd, Bool.not_true, Bool.false_eq_true, if_false]
      exact ⟨ih'.1, ih'.2⟩
    | false =>
      have hdrop : e.filename.data.drop repoRoot.length = tl := by
        rw [hf, List.drop_left]
      simp only [runEntries, processEntry_root_file tgt e tl hf hd,
        List.cons_append, List.nil_append, writesOf_cons_mkdirs,
        writesOf_cons_write, List.filter_cons, hd, Bool.not_false, if_true,
        List.map_cons, hdrop]
      exact ⟨ih'.1, by rw [ih'.2]⟩

/-- A path joined under an absolute target directory contains a separator. -/
theorem slash_mem_path_join (tgt b : String) (htgt : tgt.data.head? = some '/') :
    '/' ∈ (path_join tgt b).data := by
  have hmem : '/' ∈ tgt.data := by
    cases hd : tgt.data with
    | nil => rw [hd] at htgt; simp at htgt
    | cons c cs =>
      rw [hd] at htgt
      simp only [List.head?_cons, Option.some.injEq] at htgt
      rw [htgt]
      exact List.mem_cons_self '/' cs
  rw [path_join]
  split_ifs with h1 h2 h3
  · cases hb : b.data with
    | nil => rw [hb] at h1; simp at h1
    | cons c cs =>
      rw [hb] at h1
      simp only [List.head?_cons, Option.some.injEq] at h1
      rw [h1]
      exact List.mem_cons_self '/' cs
  · exact absurd hmem (by rw [h2]; simp)
  · exact List.mem_append_left _ hmem
  · exact List.mem_append_left _ hmem

/-- The dirname of a path containing a separator is nonempty. -/
theorem dirname_ne_nil (s : String) (h : '/' ∈ s.data) : (dirname s).data ≠ [] := by
  have hh : (s.data.reverse.dropWhile (fun c => decide (c ≠ '/'))).reverse ≠ [] := by
    intro h0
    rw [List.reverse_eq_nil_iff, List.dropWhile_eq_nil_iff] at h0
    have := h0 '/' (List.mem_reverse.mpr h)
    simp at this
  rw [dirname]
  split_ifs with h1 h2
  · exact absurd h1 hh
  · exact hh
  · intro h0
    apply h2
    simp only [String.data] at h0
    rw [List.reverse_eq_nil_iff, List.dropWhile_eq_nil_iff] at h0
    rw [List.all_eq_true]
    intro x hx
    exact h0 x (List.mem_reverse.mpr hx)

/-- `os.makedirs(d)` creates `d` itself (when `d` is a nonempty path). -/
theorem dirChain_self_mem (d : String) (h : d.data ≠ []) : d ∈ dirChain d := by
  rw [dirChain, dirChainAux, if_neg h]
  split
  · exact List.mem_singleton.mpr rfl
  · exact List.mem_cons_self _ _

/-- The shape of every trace the installer loop produces under an absolute
target directory: each write of a file is immediately preceded by the
`makedirs` of its parent directory, and every written path contains a
separator. -/
inductive GoodTrace : List Op → Prop where
  | nil : GoodTrace []
  | block (p : String) (c : List Nat) (rest : List Op)
      (hp : '/' ∈ p.data) (h : GoodTrace rest) :
      GoodTrace (Op.mkdirs (dirname p) :: Op.write p c :: rest)

theorem goodTrace_runEntries (tgt : String) (htgt : tgt.data.head? = some '/')
    (entries : List ZipEntry) : GoodTrace (runEntries tgt entries).1 := by
  induction entries with
  | nil => exact GoodTrace.nil
  | cons e rest ih =>
    cases hd : is_dir e with
    | true =>
      rw [runEntries_cons_ok tgt e rest [] (processEntry_dir tgt e hd)]
      simpa using ih
    | false =>
      cases hs : splitFirstSlashAux e.filename.data with
      | none =>
        have hpe : processEntry tgt e = none := by simp [processEntry, hd, hs]
        rw [runEntries_cons_fail tgt e rest hpe]
        exact GoodTrace.nil
      | some rel =>
        by_cases hrel : rel = []
        · have hpe : processEntry tgt e = some [] := by
            simp [processEntry, hd, hs, hrel]
          rw [runEntries_cons_ok tgt e rest [] hpe]
          simpa using ih
        · have hpe : processEntry tgt e =
              some [Op.mkdirs (dirname (path_join tgt (String.mk rel))),
                    Op.write (path_join tgt (String.mk rel)) e.content] := by
            simp [processEntry, hd, hs, hrel]
          rw [runEntries_cons_ok tgt e rest _ hpe]
          exact GoodTrace.block _ _ _ (slash_mem_path_join tgt _ htgt) ih

/-- In a well-shaped trace, at the moment any write is applied, the parent
directory of the written path has already been created, whatever the
initial filesystem state was. -/
theorem goodTrace_parent_before_write {ops : List Op} (hg : GoodTrace ops) :
    ∀ (fs0 : FS) (pre suf : List Op) (p : String) (c : List Nat),
      ops = pre ++ Op.write p c :: suf →
      dirname p ∈ (applyOps fs0 pre).dirs := by
  induction hg with
  | nil =>
    intro fs0 pre suf p c h
    exact absurd h.symm (by simp)
  | block q cq rest hq hrest ih =>
    intro fs0 pre suf p c h
    cases pre with
    | nil => simp at h
    | cons x pre1 =>
      cases pre1 with
      | nil =>
        simp only [List.cons_append, List.nil_append] at h
        injection h with h1 h2
        injection h2 with h3 h4
        injection h3 with h5 h6
        subst h1
        subst h5
        exact List.mem_append_left _ (dirChain_self_mem _ (dirname_ne_nil q hq))
      | cons y pre2 =>
        simp only [List.cons_append] at h
        injection h with h1 h2
        injection h2 with h3 h4
        subst h1
        subst h3
        exact ih (FS.applyOp (FS.applyOp fs0 (Op.mkdirs (dirname q))) (Op.write q cq))
          pre2 suf p c h4

/-- Applying a write to any filesystem state makes the path hold exactly
the written bytes, shadowing whatever was there before. -/
theorem lookupFile_after_write (fs : FS) (p : String) (c : List Nat) :
    (FS.applyOp fs (Op.write p c)).lookupFile p = some c := by
  rw [FS.applyOp, FS.lookupFile, List.find?_cons_of_pos _ (by simp)]
  rfl

/-! ## The claims -/

/-- C1: for every pair of version strings, `check_for_updates` reports an
update available exactly when the remote version is strictly greater than
the local one under lexicographic string ordering; in particular the
comparison is irreflexive, so a remote version equal to the local one never
reports an update. -/
theorem C1_check_is_strict_lexicographic (lf : LocalFile) (rr : RemoteResponse)
    (rv : String) (h : get_remote_version rr = some rv) :
    ((check_for_updates lf rr).1 = true ↔
      pyStrLt (get_local_version lf) rv = true) ∧
    (rv = get_local_version lf → (check_for_updates lf rr).1 = false) := by
  refine ⟨check_fst_iff lf rr rv h, fun he => ?_⟩
  cases hb : (check_for_updates lf rr).1 with
  | false => rfl
  | true =>
    have := (check_fst_iff lf rr rv h).mp hb
    rw [he, pyStrLt_irrefl] at this
    exact absurd this (by simp)

/-- Witness for C1 at a concrete input: local record absent (version
`"0.0.0"`), remote manifest version `"1.0.0"`. -/
theorem C1_witness :
    ((check_for_updates LocalFile.absent
        (RemoteResponse.http 200 (RemoteBody.json [("version", "1.0.0")]))).1 = true ↔
      pyStrLt (get_local_version LocalFile.absent) "1.0.0" = true) ∧
    ("1.0.0" = get_local_version LocalFile.absent →
      (check_for_updates LocalFile.absent
        (RemoteResponse.http 200 (RemoteBody.json [("version", "1.0.0")]))).1 = false) :=
  C1_check_is_strict_lexicographic LocalFile.absent
    (RemoteResponse.http 200 (RemoteBody.json [("version", "1.0.0")])) "1.0.0" (by decide)

/-- C2 counterexample: a remote manifest that is a valid JSON object but has
no `version` field does not make `check_for_updates` fail with a
`ParseError`.  `data.get("version")` silently yields `None` inside
`get_remote_version` (every exception there is caught anyway), and
`check_for_updates` completes normally with the no-update result
`(False, local, None)`; the version record state is untouched. -/
theorem C2_counterexample_no_parse_error :
    check_for_updates_st LocalFile.absent
        (RemoteResponse.http 200 (RemoteBody.json [("url", "u")])) =
      ((false, "0.0.0", none), LocalFile.absent) := by decide

/-- C2 (amended): for every remote manifest that is valid structured data
but lacks the `version` field, `check_for_updates` does not raise: it
returns the no-update triple `(false, local_version, none)`, and the local
version record is unchanged by the call. -/
theorem C2_amended_missing_version_is_no_update (lf : LocalFile)
    (kvs : List (String × String)) (h : lookupKV kvs "version" = none) :
    check_for_updates_st lf (RemoteResponse.http 200 (RemoteBody.json kvs)) =
      ((false, get_local_version lf, none), lf) := by
  have hr : get_remote_version (RemoteResponse.http 200 (RemoteBody.json kvs)) = none := by
    simp [get_remote_version, h]
  simp [check_for_updates_st, check_for_updates, hr]

/-- Witness for C2 (amended): a manifest holding only a `url` field. -/
theorem C2_amended_witness :
    check_for_updates_st LocalFile.unreadable
        (RemoteResponse.http 200 (RemoteBody.json [("url", "https://x")])) =
      ((false, get_local_version LocalFile.unreadable, none), LocalFile.unreadable) :=
  C2_amended_missing_version_is_no_update LocalFile.unreadable [("url", "https://x")]
    (by decide)

/-- C6: the `__main__` dispatch of `--update` invokes `restart_program`
(`os.execv`, which replaces the process) even when `do_update` returned
`False`: the boolean result of `do_update()` is discarded, so a failed
install is followed by a restart all the same, contradicting the documented
"surfaces the error without restarting" behavior honoured elsewhere
(`main.py` checks `do_update`'s result before exiting). -/
theorem C6_restart_despite_failed_install :
    cli_main false true true false =
      [CliAction.checkForUpdates, CliAction.doUpdateCall, CliAction.execRestart] := rfl

/-- C7: whenever the remote endpoint call fails — connection failure,
timeout, or a non-success HTTP status in the 4xx/5xx range (for which
`raise_for_status` raises) — `check_for_updates` returns
`(false, local_version, none)` instead of raising, so the host application
keeps running on its existing version. -/
theorem C7_check_degrades_on_remote_failure (lf : LocalFile) (rr : RemoteResponse)
    (h : rr = RemoteResponse.connectionFailure ∨ rr = RemoteResponse.timeout ∨
      ∃ s b, rr = RemoteResponse.http s b ∧ 400 ≤ s ∧ s < 600) :
    check_for_updates lf rr = (false, get_local_version lf, none) := by
  have hr : get_remote_version rr = none := by
    rcases h with h | h | ⟨s, b, h, h4, h6⟩ <;> subst h
    · rfl
    · rfl
    · simp [get_remote_version, h4, h6]
  simp [check_for_updates, hr]

/-- Witness for C7: an HTTP 500 response whose body even contains a valid
newer version is still treated as "no update". -/
theorem C7_witness :
    check_for_updates LocalFile.absent
        (RemoteResponse.http 500 (RemoteBody.json [("version", "9.9.9")])) =
      (false, "0.0.0", none) :=
  C7_check_degrades_on_remote_failure LocalFile.absent
    (RemoteResponse.http 500 (RemoteBody.json [("version", "9.9.9")]))
    (Or.inr (Or.inr ⟨500, RemoteBody.json [("version", "9.9.9")], rfl, by decide, by decide⟩))

/-- C8: when the local version record file is absent, reading the local
version is not an error (`get_local_version` is total and takes the
`os.path.exists` early return) and yields the sentinel lowest version
`"0.0.0"`. -/
theorem C8_absent_record_defaults : get_local_version LocalFile.absent = "0.0.0" := rfl

/-- C10: when the local version record exists but is unreadable, is not
valid JSON, or is valid JSON without a `version` key, `get_local_version`
returns `"0.0.0"` instead of failing, and `check_for_updates` proceeds with
that sentinel — reporting an update as available for a remote version such
as `"1.0.0"`. -/
theorem C10_invalid_record_defaults (lf : LocalFile)
    (h : lf = LocalFile.unreadable ∨ lf = LocalFile.invalidJson ∨
      ∃ kvs, lf = LocalFile.valid kvs ∧ lookupKV kvs "version" = none) :
    get_local_version lf = "0.0.0" ∧
    check_for_updates lf (RemoteResponse.http 200 (RemoteBody.json [("version", "1.0.0")])) =
      (true, "0.0.0", some "1.0.0") := by
  have hl : get_local_version lf = "0.0.0" := by
    rcases h with h | h | ⟨kvs, h, hk⟩ <;> subst h
    · rfl
    · rfl
    · simp [get_local_version, hk]
  refine ⟨hl, ?_⟩
  simp only [check_for_updates, hl]
  decide

/-- C3 counterexample: `do_update` never compares entry paths against the
root prefix determined from the first entry (`root_folder` is only
logged).  For an archive whose first entry is rooted at `"Repo-main/"` and
whose second entry has the different root `"Other/"`, the install does not
fail: it returns `True` and writes the mismatched entry's file, silently
stripped of its own first component. -/
theorem C3_counterexample_mismatched_root_written :
    (do_update "/app" [⟨"Repo-main/a.txt", [1]⟩, ⟨"Other/b.txt", [2]⟩]).2 = true ∧
    Op.write "/app/b.txt" [2] ∈
      (do_update "/app" [⟨"Repo-main/a.txt", [1]⟩, ⟨"Other/b.txt", [2]⟩]).1 := by
  decide

/-- C3 (amended): `do_update` performs no root-prefix consistency check; a
file entry whose path does not start with the expected root is written
anyway with its first path component stripped.  The install aborts only
when a file entry's path contains no separator at all (`split('/', 1)[1]`
raises `IndexError`): in that case `do_update` returns `False` and no file
processed at or after the offending entry is written — exactly the
operations of the entries before it are performed. -/
theorem C3_amended_abort_only_on_separatorless_entry (tgt : String)
    (pre post : List ZipEntry) (e : ZipEntry)
    (hdir : is_dir e = false) (hns : splitFirstSlashAux e.filename.data = none) :
    do_update tgt (pre ++ e :: post) = ((runEntries tgt pre).1, false) := by
  have hpe : processEntry tgt e = none := by simp [processEntry, hdir, hns]
  have he : runEntries tgt (e :: post) = ([], false) :=
    runEntries_cons_fail tgt e post hpe
  have hdu : do_update tgt (pre ++ e :: post) = runEntries tgt (pre ++ e :: post) := by
    cases pre <;> rfl
  rw [hdu, runEntries_append, he]
  by_cases h2 : (runEntries tgt pre).2 = true
  · simp [h2]
  · rw [if_neg h2]
    rw [Bool.not_eq_true] at h2
    exact Prod.ext rfl h2

/-- Witness for C3 (amended): a two-entry archive whose second entry
`"bad"` has no separator; only the first entry's operations happen and the
install reports failure. -/
theorem C3_amended_witness :
    do_update "/app" ([⟨"Repo-main/a.txt", [1]⟩] ++ ⟨"bad", [2]⟩ :: []) =
      ((runEntries "/app" [⟨"Repo-main/a.txt", [1]⟩]).1, false) :=
  C3_amended_abort_only_on_separatorless_entry "/app" [⟨"Repo-main/a.txt", [1]⟩]
    [] ⟨"bad", [2]⟩ (by decide) (by decide)

/-- C4: for a non-empty archive in which every entry is rooted at
`"Repo-main/"`, `do_update` succeeds and writes exactly the non-directory
entries, each to the path under `target_dir` obtained by stripping the
root prefix, with contents byte-identical to the archive entry's
contents. -/
theorem C4_rooted_archive_strips_and_writes (tgt : String)
    (entries : List ZipEntry) (hne : entries ≠ [])
    (hall : ∀ e ∈ entries, ∃ rest, e.filename.data = repoRoot ++ rest) :
    (do_update tgt entries).2 = true ∧
    writesOf (do_update tgt entries).1 =
      (entries.filter (fun e => !(is_dir e))).map
        (fun e => (path_join tgt (String.mk (e.filename.data.drop repoRoot.length)),
          e.content)) := by
  cases entries with
  | nil => exact absurd rfl hne
  | cons e rest => exact runEntries_rooted tgt (e :: rest) hall

/-- Witness for C4: a one-file archive `Repo-main/a.txt` with bytes
`[1, 2]` is written to `/app/a.txt` with the same bytes. -/
theorem C4_witness :
    (do_update "/app" [⟨"Repo-main/a.txt", [1, 2]⟩]).2 = true ∧
    writesOf (do_update "/app" [⟨"Repo-main/a.txt", [1, 2]⟩]).1 =
      (([⟨"Repo-main/a.txt", [1, 2]⟩] : List ZipEntry).filter
          (fun e => !(is_dir e))).map (fun e =>
        (path_join "/app" (String.mk (e.filename.data.drop repoRoot.length)),
          e.content)) :=
  C4_rooted_archive_strips_and_writes "/app" [⟨"Repo-main/a.txt", [1, 2]⟩]
    (by decide)
    (fun e he => by
      rw [List.mem_singleton] at he
      subst he
      exact ⟨"a.txt".data, by decide⟩)

/-- C5 counterexample: a successful `do_update` does not write the version
record.  For an archive rooted at `"Repo-main/"` that contains no
`version.json`, the install succeeds while no write to
`os.path.join(target_dir, "version.json")` occurs — the locally persisted
version stays whatever it was, not the remote manifest's version. -/
theorem C5_counterexample_no_record_write :
    (do_update "/app" [⟨"Repo-main/a.txt", [1]⟩]).2 = true ∧
    local_version_file "/app" ∉
      (writesOf (do_update "/app" [⟨"Repo-main/a.txt", [1]⟩]).1).map Prod.fst := by
  decide

/-- C5 (amended): `do_update` contains no explicit step that writes the
new version record; the record is updated only insofar as the archive
itself ships a `version.json` entry.  When an archive rooted at
`"Repo-main/"` does contain a file entry `Repo-main/version.json`, the
install writes that entry's bytes to the version-record path under
`target_dir`. -/
theorem C5_amended_record_comes_from_archive (tgt : String)
    (entries : List ZipEntry) (c : List Nat)
    (hmem : ZipEntry.mk "Repo-main/version.json" c ∈ entries)
    (hall : ∀ e ∈ entries, ∃ rest, e.filename.data = repoRoot ++ rest) :
    (local_version_file tgt, c) ∈ writesOf (do_update tgt entries).1 := by
  cases entries with
  | nil => exact absurd hmem (List.not_mem_nil _)
  | cons e rest =>
    have h := (runEntries_rooted tgt (e :: rest) hall).2
    show (local_version_file tgt, c) ∈ writesOf (runEntries tgt (e :: rest)).1
    rw [h]
    apply List.mem_map.mpr
    refine ⟨ZipEntry.mk "Repo-main/version.json" c,
      List.mem_filter.mpr ⟨hmem, rfl⟩, ?_⟩
    rw [show String.mk (("Repo-main/version.json" : String).data.drop repoRoot.length) =
      "version.json" from by decide]
    rfl

/-- Witness for C5 (amended): a singleton archive holding
`Repo-main/version.json` with bytes `[7]`. -/
theorem C5_amended_witness :
    (local_version_file "/app", [7]) ∈
      writesOf (do_update "/app" [⟨"Repo-main/version.json", [7]⟩]).1 :=
  C5_amended_record_comes_from_archive "/app" [⟨"Repo-main/version.json", [7]⟩]
    [7] (List.mem_singleton.mpr rfl)
    (fun e he => by
      rw [List.mem_singleton] at he
      subst he
      exact ⟨"version.json".data, by decide⟩)

/-- C9: during install, writes happen under a parent-directories-first
discipline: for every decomposition of the trace of a `do_update` (under
an absolute target directory, as `os.path.abspath` guarantees) around a
file write, the written path's parent directory is already present in the
filesystem state built from the preceding operations — whatever state the
filesystem started in — and applying the write makes the path hold exactly
the written bytes, overwriting any existing file there. -/
theorem C9_parent_dirs_created_before_write (tgt : String)
    (entries : List ZipEntry) (fs0 : FS) (pre suf : List Op) (p : String)
    (c : List Nat) (htgt : tgt.data.head? = some '/')
    (hsplit : (do_update tgt entries).1 = pre ++ Op.write p c :: suf) :
    dirname p ∈ (applyOps fs0 pre).dirs ∧
    (applyOps fs0 (pre ++ [Op.write p c])).lookupFile p = some c := by
  constructor
  · cases entries with
    | nil =>
      rw [do_update] at hsplit
      exact absurd hsplit.symm (by simp)
    | cons e rest =>
      exact goodTrace_parent_before_write
        (goodTrace_runEntries tgt htgt (e :: rest)) fs0 pre suf p c hsplit
  · rw [applyOps, List.foldl_append]
    exact lookupFile_after_write _ p c

/-- Witness for C9: the one-file archive `R/a.txt` under target `/app`;
the trace is `mkdirs "/app"` then the write of `/app/a.txt`, and after the
write the file holds its bytes. -/
theorem C9_witness :
    dirname "/app/a.txt" ∈ (applyOps ⟨[], []⟩ [Op.mkdirs "/app"]).dirs ∧
    (applyOps ⟨[], []⟩ ([Op.mkdirs "/app"] ++ [Op.write "/app/a.txt" [1, 2]])).lookupFile
      "/app/a.txt" = some [1, 2] :=
  C9_parent_dirs_created_before_write "/app" [⟨"R/a.txt", [1, 2]⟩] ⟨[], []⟩
    [Op.mkdirs "/app"] [] "/app/a.txt" [1, 2] (by decide) (by decide)

/-- Witness for C10: an unreadable record file. -/
theorem C10_witness :
    get_local_version LocalFile.unreadable = "0.0.0" ∧
    check_for_updates LocalFile.unreadable
        (RemoteResponse.http 200 (RemoteBody.json [("version", "1.0.0")])) =
      (true, "0.0.0", some "1.0.0") :=
  C10_invalid_record_defaults LocalFile.unreadable (Or.inl rfl)

end Updater
